import Mathlib

/-!
Verification of the CAEP session-revoked transmitter (`src/dist/index.js`).

Part 1 embeds the retry/backoff policy (`calculateBackoff`, `parseRetryAfter`,
`shouldRetry`), the SET shape validator (`isValidSET`) and the attempt loop of
`transmitSET`.  Part 2 embeds the JSONPath template resolver
(`get`, `extractJSONPathValue`, `resolveTemplateString`,
`resolveJSONPathTemplates`).

Machine integers are modelled as `Nat`/`Int`, JS floating point arithmetic in
the backoff computation as `ℚ` (all quantities involved are exact decimals),
the `Math.random()` draw as an explicit parameter `rand` with
`0 ≤ rand < 1`, and stateful fetch behaviour as an explicit environment
`env : Nat → AttemptOutcome` giving the outcome of each attempt.  The `Date`
parser used for HTTP dates and the WHATWG URL parser are abstracted as oracle
parameters; everything else is translated from the source.
-/

/-- Retry configuration, from `DEFAULT_RETRY_CONFIG` and `src/types.ts`
(`dist/index.js` lines 5-11). -/
structure RetryConfig where
  maxAttempts : Nat
  retryableStatuses : List Nat
  backoffMs : ℚ
  maxBackoffMs : ℚ
  backoffMultiplier : ℚ
deriving Repr, DecidableEq

/-- Default retry configuration (`dist/index.js` lines 5-11). -/
def DEFAULT_RETRY_CONFIG : RetryConfig :=
  { maxAttempts := 3
    retryableStatuses := [429, 502, 503, 504]
    backoffMs := 1000
    maxBackoffMs := 10000
    backoffMultiplier := 2 }

/-- Default status validation predicate `(status) => status < 400`
(`dist/index.js` line 15). -/
def defaultValidateStatus (status : Nat) : Bool :=
  decide (status < 400)

/-- Exponential-backoff branch of `calculateBackoff` (`dist/index.js`
lines 62-67): clamp `backoffMs * multiplier ^ (attempt-1)` to `maxBackoffMs`,
then jitter by `Math.random() * (maxDelay - minDelay) + minDelay` with
`minDelay = clamped - 25%` and `maxDelay = clamped + 25%`, and `Math.floor`
the result. -/
def backoffNoHint (attempt : Nat) (cfg : RetryConfig) (rand : ℚ) : ℚ :=
  let exponentialDelay := cfg.backoffMs * cfg.backoffMultiplier ^ (attempt - 1)
  let clampedDelay := min exponentialDelay cfg.maxBackoffMs
  let jitter := clampedDelay * (1/4)
  let minDelay := clampedDelay - jitter
  let maxDelay := clampedDelay + jitter
  ((⌊rand * (maxDelay - minDelay) + minDelay⌋ : ℤ) : ℚ)

/-- Model of `calculateBackoff(attempt, config, retryAfterMs)`
(`dist/index.js` lines 58-68).  A positive server hint short-circuits to
`min(retryAfterMs, maxBackoffMs)`; otherwise the jittered exponential delay
is used. -/
def calculateBackoff (attempt : Nat) (cfg : RetryConfig) (retryAfterMs : Option ℚ)
    (rand : ℚ) : ℚ :=
  match retryAfterMs with
  | some h => if 0 < h then min h cfg.maxBackoffMs else backoffNoHint attempt cfg rand
  | none => backoffNoHint attempt cfg rand

/-- Leading decimal digits of a character list, as consumed by JS
`parseInt(s, 10)` after sign handling; `none` when no digit is present. -/
def digitsToNat (cs : List Char) : Option Nat :=
  let ds := cs.takeWhile Char.isDigit
  if ds.isEmpty then none
  else some (ds.foldl (fun acc c => acc * 10 + (c.toNat - 48)) 0)

/-- Model of JS `parseInt(s, 10)`: skip leading whitespace, optional sign,
then the longest prefix of decimal digits; `none` models `NaN`. -/
def jsParseInt (s : String) : Option Int :=
  let cs := s.toList.dropWhile (fun c => c = ' ' || c = '\t' || c = '\n' || c = '\r')
  match cs with
  | [] => none
  | c :: rest =>
    if c = '-' then (digitsToNat rest).map (fun n => -(n : Int))
    else if c = '+' then (digitsToNat rest).map (fun n => (n : Int))
    else (digitsToNat cs).map (fun n => (n : Int))

/-- Model of `parseRetryAfter(retryAfterHeader)` (`dist/index.js` lines
69-83).  The HTTP-date parser `new Date(...)` is abstracted as the oracle
`dateParse` (giving the parsed epoch milliseconds) and `Date.now()` as `now`;
an absent header is modelled by the empty string (the only falsy string). -/
def parseRetryAfter (dateParse : String → Option Int) (now : Int)
    (retryAfterHeader : String) : Option Int :=
  if retryAfterHeader = "" then none
  else
    match jsParseInt retryAfterHeader with
    | some delaySeconds => some (delaySeconds * 1000)
    | none =>
      match dateParse retryAfterHeader with
      | some t => let delayMs := t - now; if 0 < delayMs then some delayMs else none
      | none => none

/-- Model of `shouldRetry(statusCode, attempt, config)` (`dist/index.js`
lines 87-95). -/
def shouldRetry (statusCode : Option Nat) (attempt : Nat) (cfg : RetryConfig) : Bool :=
  if cfg.maxAttempts ≤ attempt then false
  else
    match statusCode with
    | none => true
    | some s => cfg.retryableStatuses.contains s

/-- Splitting a character list at every dot, mirroring JS
`string.split(".")` (used by `isValidSET` and by the template path getter). -/
def splitDots : List Char → List (List Char)
  | [] => [[]]
  | c :: rest =>
    match splitDots rest with
    | seg :: segs => if c = '.' then [] :: seg :: segs else (c :: seg) :: segs
    | [] => [[]]

/-- One segment of a compact SET: nonempty and matching `^[A-Za-z0-9_-]+$`
(`dist/index.js` line 109). -/
def isBase64urlPart (p : List Char) : Bool :=
  !p.isEmpty && p.all (fun c => c.isAlpha || c.isDigit || c = '_' || c = '-')

/-- Model of `isValidSET(jwt)` (`dist/index.js` lines 101-111): exactly three
dot-separated segments, each nonempty base64url. -/
def isValidSET (jwt : String) : Bool :=
  let parts := splitDots jwt.toList
  parts.length == 3 && parts.all isBase64urlPart

/-- Outcome of one `fetch` attempt as observed by the `transmitSET` loop:
an HTTP response with a status code, an abort (timeout) exception, or any
other network exception.  Response bodies and headers do not influence the
control flow modelled here and are abstracted away. -/
inductive AttemptOutcome where
  | response (status : Nat)
  | abortError
  | networkError
deriving Repr, DecidableEq

/-- Classified transport exceptions held in `lastError`
(`TimeoutError` / `NetworkError`, `dist/index.js` lines 224-232). -/
inductive ThrowKind where
  | timeout
  | network
deriving Repr, DecidableEq

/-- Observable outcome of `transmitSET`: a returned success result, a
returned terminal failed result (with its `statusCode` and `retryable` flag),
or a thrown classified error. -/
inductive TransmitOutcome where
  | success (statusCode : Nat)
  | terminalFailed (statusCode : Nat) (retryable : Bool)
  | thrownValidation
  | thrownTimeout
  | thrownNetwork
  | thrownTransmission
deriving Repr, DecidableEq

/-- First-some choice on options. -/
def optOr {α : Type} (a b : Option α) : Option α :=
  match a with
  | some x => some x
  | none => b

/-- Post-loop logic of `transmitSET` (`dist/index.js` lines 246-263): with a
recorded last response, return a terminal failed result carrying its status
and `retryable: true`; otherwise throw the recorded classified error, or a
generic `TransmissionError` when no attempt ever ran. -/
def postLoop (lastResp : Option Nat) (lastErr : Option ThrowKind) : TransmitOutcome :=
  match lastResp with
  | some st => .terminalFailed st true
  | none =>
    match lastErr with
    | some .timeout => .thrownTimeout
    | some .network => .thrownNetwork
    | none => .thrownTransmission

/-- Attempt loop of `transmitSET` (`dist/index.js` lines 184-245), with
`fuel` remaining iterations (the entry point passes `fuel = maxAttempts` and
`attempt = 1`).  Returns the observable outcome together with the number of
`fetch` calls issued.  A response is recorded in `lastResp`; a transport
exception is classified into `lastErr`, and when `shouldRetry` denies another
attempt the rethrown error is swallowed by the outer catch (line 239-244),
ending the loop, which is modelled by going to `postLoop` directly. -/
def transmitFrom (env : Nat → AttemptOutcome) (cfg : RetryConfig) (vs : Nat → Bool) :
    Nat → Nat → Option Nat → Option ThrowKind → TransmitOutcome × Nat
  | _, 0, lastResp, lastErr => (postLoop lastResp lastErr, 0)
  | attempt, fuel + 1, lastResp, lastErr =>
    match env attempt with
    | .response st =>
      if vs st then (.success st, 1)
      else if shouldRetry (some st) attempt cfg then
        let r := transmitFrom env cfg vs (attempt + 1) fuel (some st) lastErr
        (r.1, r.2 + 1)
      else (.terminalFailed st (cfg.retryableStatuses.contains st), 1)
    | .abortError =>
      if shouldRetry none attempt cfg then
        let r := transmitFrom env cfg vs (attempt + 1) fuel lastResp (some .timeout)
        (r.1, r.2 + 1)
      else (postLoop lastResp (some .timeout), 1)
    | .networkError =>
      if shouldRetry none attempt cfg then
        let r := transmitFrom env cfg vs (attempt + 1) fuel lastResp (some .network)
        (r.1, r.2 + 1)
      else (postLoop lastResp (some .network), 1)

/-- Model of `transmitSET(jwt, url, options)` (`dist/index.js` lines
151-264).  The URL parser `new URL(url)` is abstracted as the boolean
`urlOk` (whether parsing succeeds); `env` gives each attempt outcome, `cfg`
the merged retry config and `vs` the merged `validateStatus` predicate.
Returns the observable outcome paired with the number of network calls. -/
def transmitSETModel (jwt : String) (urlOk : Bool) (env : Nat → AttemptOutcome)
    (cfg : RetryConfig) (vs : Nat → Bool) : TransmitOutcome × Nat :=
  if !isValidSET jwt then (.thrownValidation, 0)
  else if !urlOk then (.thrownValidation, 0)
  else transmitFrom env cfg vs 1 cfg.maxAttempts none none

/-- Status of the most recent HTTP response among attempts
`attempt, …, attempt + fuel - 1`, if any. -/
def recentResp (env : Nat → AttemptOutcome) : Nat → Nat → Option Nat
  | _, 0 => none
  | attempt, fuel + 1 =>
    match recentResp env (attempt + 1) fuel with
    | some st => some st
    | none =>
      match env attempt with
      | .response st => some st
      | _ => none

/-- Classification of the most recent transport exception among attempts
`attempt, …, attempt + fuel - 1`, if any. -/
def lastThrow (env : Nat → AttemptOutcome) : Nat → Nat → Option ThrowKind
  | _, 0 => none
  | attempt, fuel + 1 =>
    match lastThrow env (attempt + 1) fuel with
    | some e => some e
    | none =>
      match env attempt with
      | .abortError => some .timeout
      | .networkError => some .network
      | _ => none

/-- An attempt outcome that keeps the retry loop going while budget remains:
either a transport exception, or a rejected response whose status is in the
retryable set. -/
def retryEligibleB (cfg : RetryConfig) (vs : Nat → Bool) : AttemptOutcome → Bool
  | .response st => !vs st && cfg.retryableStatuses.contains st
  | _ => true

/-!
Part 2: the JSONPath template resolver (`dist/index.js` lines 266-544).

JSON-like runtime values are modelled by the mutual inductive family
`JValue`/`JList`/`JFields` (numbers restricted to integers; object fields
keep insertion order, as JS objects do).  JS `undefined` is modelled by
`Option.none` at the points where the source distinguishes it.  The model is
prototype-free: property access on primitives yields `undefined` except for
the array/string `length` property and string indexing, which the path
getter can reach.
-/

mutual
inductive JValue where
  | str : String → JValue
  | num : Int → JValue
  | jbool : Bool → JValue
  | jnull : JValue
  | arr : JList → JValue
  | obj : JFields → JValue
inductive JList where
  | nil : JList
  | cons : JValue → JList → JList
inductive JFields where
  | nil : JFields
  | fcons : String → JValue → JFields → JFields
end

/-- Left brace character, written by code point to keep braces out of
string literals. -/
def lbraceC : Char := Char.ofNat 123

/-- Right brace character. -/
def rbraceC : Char := Char.ofNat 125

/-- Single-quote character. -/
def quoteC : Char := Char.ofNat 39

/-- Double-quote character. -/
def dquoteC : Char := Char.ofNat 34

/-- Dollar character, the head of every JSONPath template. -/
def dollarC : Char := '$'

/-- First-match field lookup, mirroring JS property access on our ordered
field lists. -/
def jfFind : JFields → String → Option JValue
  | .nil, _ => none
  | .fcons k v fs, key => if k = key then some v else jfFind fs key

/-- Element access by index. -/
def jlGet : JList → Nat → Option JValue
  | .nil, _ => none
  | .cons x _, 0 => some x
  | .cons _ xs, n + 1 => jlGet xs n

/-- Length of a modelled JS array. -/
def jlLength : JList → Nat
  | .nil => 0
  | .cons _ xs => jlLength xs + 1

/-- Test for the JS value `''` (the only value strictly equal to the empty
string). -/
def isEmptyStr : JValue → Bool
  | .str s => s = ""
  | _ => false

/-- JS falsiness of a modelled value (`undefined` is handled separately as
`Option.none` where it can occur). -/
def jsFalsy : JValue → Bool
  | .jnull => true
  | .str s => s = ""
  | .num n => n = 0
  | .jbool b => !b
  | .arr _ => false
  | .obj _ => false

/-- Decimal digit characters of a natural number (auxiliary, fuel-driven). -/
def natToStrAux : Nat → Nat → List Char
  | 0, _ => []
  | fuel + 1, n => if n = 0 then [] else natToStrAux fuel (n / 10) ++ [Char.ofNat (48 + n % 10)]

/-- Canonical decimal string of a natural number (JS number-to-string for
small nonnegative integers). -/
def natToStr (n : Nat) : String :=
  if n = 0 then "0" else String.mk (natToStrAux (n + 1) n)

/-- Canonical decimal string of an integer. -/
def intToStr (n : Int) : String :=
  if n < 0 then "-" ++ natToStr n.natAbs else natToStr n.natAbs

/-- Test that a character list is the canonical decimal form of an array
index (nonempty, digits only, no leading zero except `"0"` itself); JS array
access `arr[seg]` hits an element only for such canonical numeric keys. -/
def isCanonicalNat (cs : List Char) : Bool :=
  match cs with
  | [] => false
  | [c] => c.isDigit
  | c :: rest => c.isDigit && !(c = '0') && rest.all Char.isDigit

/-- Numeric value of a digit list. -/
def natOfDigits (cs : List Char) : Nat :=
  cs.foldl (fun a c => a * 10 + (c.toNat - 48)) 0

/-- Canonical array index denoted by a path segment, if any. -/
def canonIndex (s : String) : Option Nat :=
  if isCanonicalNat s.toList then some (natOfDigits s.toList) else none

/-- Model of one JS member access `current[segment]` as performed by the
`get` helper (`dist/index.js` lines 299-304): field lookup on objects,
index/`length` on arrays and strings, `undefined` on other primitives. -/
def jIndex : JValue → String → Option JValue
  | .obj fs, seg => jfFind fs seg
  | .arr xs, seg =>
    if seg = "length" then some (.num (jlLength xs))
    else
      match canonIndex seg with
      | some n => jlGet xs n
      | none => none
  | .str s, seg =>
    if seg = "length" then some (.num s.length)
    else
      match canonIndex seg with
      | some n => (s.toList.get? n).map (fun c => JValue.str (String.singleton c))
      | none => none
  | _, _ => none

/-- Traversal loop of `get` (`dist/index.js` lines 298-306): bail out with
`undefined` whenever the current value is `null`/`undefined`, otherwise
index by the next segment; the final current value is returned as is. -/
def getLoop : Option JValue → List String → Option JValue
  | cur, [] => cur
  | none, _ :: _ => none
  | some .jnull, _ :: _ => none
  | some c, seg :: rest => getLoop (jIndex c seg) rest

/-- Fuel-driven global rewrite of `[digits]` to `.digits`, modelling
`path.replace(/\[(\d+)\]/g, ".$1")` (`dist/index.js` line 292). -/
def replaceBracketNumF : Nat → List Char → List Char
  | 0, cs => cs
  | _ + 1, [] => []
  | fuel + 1, c :: rest =>
    if c = '[' then
      let ds := rest.takeWhile Char.isDigit
      let r2 := rest.dropWhile Char.isDigit
      match r2 with
      | ']' :: tail =>
        if ds.isEmpty then c :: replaceBracketNumF fuel rest
        else '.' :: (ds ++ replaceBracketNumF fuel tail)
      | _ => c :: replaceBracketNumF fuel rest
    else c :: replaceBracketNumF fuel rest

/-- Fuel-driven global rewrite of a bracketed quoted key to `.key`,
modelling the two `replace` calls on lines 293-294 (quote character `q`). -/
def replaceBracketQF (q : Char) : Nat → List Char → List Char
  | 0, cs => cs
  | _ + 1, [] => []
  | fuel + 1, c :: rest =>
    if c = '[' then
      match rest with
      | [] => [c]
      | c2 :: rest2 =>
        if c2 = q then
          let ks := rest2.takeWhile (fun x => x != q)
          let r3 := rest2.dropWhile (fun x => x != q)
          match r3 with
          | _ :: c4 :: tail =>
            if c4 = ']' && !ks.isEmpty then '.' :: (ks ++ replaceBracketQF q fuel tail)
            else c :: replaceBracketQF q fuel rest
          | _ => c :: replaceBracketQF q fuel rest
        else c :: replaceBracketQF q fuel rest
    else c :: replaceBracketQF q fuel rest

/-- Path segmentation of `get` (`dist/index.js` lines 291-296): normalise
bracket notation, split on dots, and drop empty segments
(`.filter(Boolean)`). -/
def parsePathSegments (path : String) : List String :=
  let cs1 := replaceBracketNumF path.toList.length path.toList
  let cs2 := replaceBracketQF quoteC cs1.length cs1
  let cs3 := replaceBracketQF dquoteC cs2.length cs2
  ((splitDots cs3).map String.mk).filter (fun s => s != "")

/-- Model of `get(obj, path)` (`dist/index.js` lines 283-307). -/
def jsGet (obj : JValue) (path : String) : Option JValue :=
  if path = "" then none
  else
    match obj with
    | .jnull => none
    | _ => getLoop (some obj) (parsePathSegments path)

/-- Strip the leading `$.` or `$` from a JSONPath expression
(`dist/index.js` lines 377-381). -/
def stripJSONPath (jsonPath : String) : String :=
  match jsonPath.toList with
  | c1 :: c2 :: rest =>
    if c1 = dollarC then
      if c2 = '.' then String.mk rest else String.mk (c2 :: rest)
    else jsonPath
  | [c1] => if c1 = dollarC then "" else jsonPath
  | [] => jsonPath

/-- Model of `extractJSONPathValue(json, jsonPath)` (`dist/index.js` lines
374-399): `none` models `found: false`.  The bare root path returns the
whole context as found (even when it is `null`); otherwise a `get` result of
`undefined` OR `null` is reported as not found. -/
def extractJSONPathValue (json : JValue) (jsonPath : String) : Option JValue :=
  let path := stripJSONPath jsonPath
  if path = "" then some json
  else
    match jsGet json path with
    | none => none
    | some .jnull => none
    | some v => some v

/-- JSON string escaping for the characters our model can produce. -/
def escapeChar (c : Char) : List Char :=
  if c = dquoteC then ['\\', dquoteC]
  else if c = '\\' then ['\\', '\\']
  else if c = '\n' then ['\\', 'n']
  else if c = '\r' then ['\\', 'r']
  else if c = '\t' then ['\\', 't']
  else [c]

/-- Quoted, escaped JSON string literal. -/
def jsonQuote (s : String) : String :=
  String.mk (dquoteC :: ((s.toList.map escapeChar).flatten ++ [dquoteC]))

mutual
/-- Model of `JSON.stringify` on the modelled values, used by
`valueToString` for non-string substitution values (`dist/index.js`
line 417). -/
def jsonStringify : JValue → String
  | .str s => jsonQuote s
  | .num n => intToStr n
  | .jbool b => if b then "true" else "false"
  | .jnull => "null"
  | .arr xs => "[" ++ jsonStringifyList xs ++ "]"
  | .obj fs => "\x7b" ++ jsonStringifyFields fs ++ "\x7d"
def jsonStringifyList : JList → String
  | .nil => ""
  | .cons x .nil => jsonStringify x
  | .cons x xs => jsonStringify x ++ "," ++ jsonStringifyList xs
def jsonStringifyFields : JFields → String
  | .nil => ""
  | .fcons k v .nil => jsonQuote k ++ ":" ++ jsonStringify v
  | .fcons k v fs => jsonQuote k ++ ":" ++ jsonStringify v ++ "," ++ jsonStringifyFields fs
end

/-- Model of `valueToString(value)` (`dist/index.js` lines 408-418): null
becomes the empty string, strings pass through, everything else is
JSON-serialised. -/
def valueToString : JValue → String
  | .jnull => ""
  | .str s => s
  | .num n => jsonStringify (.num n)
  | .jbool b => jsonStringify (.jbool b)
  | .arr xs => jsonStringify (.arr xs)
  | .obj fs => jsonStringify (.obj fs)

/-- Fixed marker text substituted for unresolved embedded placeholders
(`dist/index.js` line 323). -/
def NO_VALUE_PLACEHOLDER : String := "\x7bNo Value\x7d"

/-- Token stream of a template string: literal characters interleaved with
the matches of `TEMPLATE_PATTERN` (`dist/index.js` line 313), each match
carrying its captured `$...` path. -/
inductive Tok where
  | lit (c : Char)
  | tmpl (path : String)
deriving Repr, DecidableEq

/-- Fuel-driven scanner realising the global-regex semantics of
`templateString.replace(/\{(\$[^}]+)\}/g, ...)`: at each position, a match
needs a brace, a dollar, one or more non-closing-brace characters and a
closing brace; otherwise one literal character is emitted and scanning
resumes at the next position. -/
def tokenizeF : Nat → List Char → List Tok
  | 0, _ => []
  | _ + 1, [] => []
  | _ + 1, [c] => [Tok.lit c]
  | fuel + 1, a :: b :: rest =>
    if a = lbraceC then
      if b = dollarC then
        let body := rest.takeWhile (fun c => c != rbraceC)
        let rest2 := rest.dropWhile (fun c => c != rbraceC)
        match rest2 with
        | [] => Tok.lit a :: tokenizeF fuel (b :: rest)
        | _ :: tail =>
          if body.isEmpty then Tok.lit a :: tokenizeF fuel (b :: rest)
          else Tok.tmpl (String.mk (dollarC :: body)) :: tokenizeF fuel tail
      else Tok.lit a :: tokenizeF fuel (b :: rest)
    else Tok.lit a :: tokenizeF fuel (b :: rest)

/-- Token stream of a template string. -/
def tokenize (s : String) : List Tok :=
  tokenizeF s.toList.length s.toList

/-- Model of `EXACT_TEMPLATE_PATTERN.test(templateString)`
(`dist/index.js` line 318): the whole string is a single template. -/
def isExactTemplate (s : String) : Bool :=
  match s.toList with
  | a :: b :: rest =>
    if a = lbraceC && b = dollarC then
      let body := rest.takeWhile (fun c => c != rbraceC)
      let r2 := rest.dropWhile (fun c => c != rbraceC)
      !body.isEmpty && r2 == [rbraceC]
    else false
  | _ => false

/-- Error message for a path that is not found. -/
def notFoundMsg (p : String) : String :=
  "failed to extract field \x27" ++ p ++ "\x27: field not found"

/-- Error message for a path whose value renders as the empty string. -/
def emptyMsg (p : String) : String :=
  "failed to extract field \x27" ++ p ++ "\x27: field is empty"

/-- Concatenation of a list of strings (the pieces assembled by
`String.replace`). -/
def strConcat : List String → String
  | [] => ""
  | s :: rest => s ++ strConcat rest

/-- Replacement text and collected errors for one token, realising the
replacement callback of `resolveTemplateString` (`dist/index.js` lines
436-458). -/
def resolveTok (ctx : JValue) (isExact omitOpt : Bool) : Tok → String × List String
  | .lit c => (String.singleton c, [])
  | .tmpl jsonPath =>
    match extractJSONPathValue ctx jsonPath with
    | none =>
      (if isExact && omitOpt then "" else NO_VALUE_PLACEHOLDER, [notFoundMsg jsonPath])
    | some v =>
      let strValue := valueToString v
      if strValue = "" then ("", [emptyMsg jsonPath])
      else (strValue, [])

/-- Model of `resolveTemplateString(templateString, jobContext, options)`
(`dist/index.js` lines 429-461): replace every template match via the
callback, collecting error messages in match order. -/
def resolveTemplateString (templateString : String) (ctx : JValue) (omitOpt : Bool) :
    String × List String :=
  let isExact := isExactTemplate templateString
  let toks := tokenize templateString
  (strConcat (toks.map (fun t => (resolveTok ctx isExact omitOpt t).1)),
   (toks.map (fun t => (resolveTok ctx isExact omitOpt t).2)).flatten)

/-- Replace every occurrence of key `k` in a field list (JS object key
update keeps the original insertion position). -/
def jfSetExisting : JFields → String → JValue → JFields
  | .nil, _, _ => .nil
  | .fcons k0 v0 fs, k, v =>
    if k0 = k then .fcons k0 v (jfSetExisting fs k v)
    else .fcons k0 v0 (jfSetExisting fs k v)

/-- Append a fresh key at the end of a field list. -/
def jfAppend : JFields → String → JValue → JFields
  | .nil, k, v => .fcons k v .nil
  | .fcons k0 v0 fs, k, v => .fcons k0 v0 (jfAppend fs k v)

/-- JS object-literal key insertion: override in place when present,
append otherwise. -/
def jfSet (fs : JFields) (k : String) (v : JValue) : JFields :=
  if (jfFind fs k).isSome then jfSetExisting fs k v else jfAppend fs k v

/-- Fold the fields of `extra` into `base` by object-literal insertion,
realising a `...spread` following earlier entries. -/
def jfSpreadInto : JFields → JFields → JFields
  | base, .nil => base
  | base, .fcons k v rest => jfSpreadInto (jfSet base k v) rest

/-- Index-keyed fields produced by spreading a string into an object
literal. -/
def strIndexFields (i : Nat) : List Char → JFields
  | [] => .nil
  | c :: rest => .fcons (natToStr i) (.str (String.singleton c)) (strIndexFields (i + 1) rest)

/-- Index-keyed fields produced by spreading an array into an object
literal. -/
def arrIndexFields : Nat → JList → JFields
  | _, .nil => .nil
  | i, .cons x xs => .fcons (natToStr i) x (arrIndexFields (i + 1) xs)

/-- Own enumerable entries contributed by `...v` inside an object literal:
object fields, string characters or array elements by index, nothing for
other primitives. -/
def spreadFields : JValue → JFields
  | .obj fs => fs
  | .str s => strIndexFields 0 s.toList
  | .arr xs => arrIndexFields 0 xs
  | _ => .nil

/-- Property access used by the optional chains `jobContext?.sgnl` etc.
(our model is prototype-free, so only object fields are reachable here). -/
def jGetField : JValue → String → Option JValue
  | .obj fs, k => jfFind fs k
  | _, _ => none

/-- Model of `injectSGNLNamespace(jobContext)` (`dist/index.js` lines
342-359) with the generated timestamp and UUID passed in as `nowStr` and
`uuid`: merge `sgnl.time.now` and `sgnl.random.uuid` into the context,
existing entries taking precedence. -/
def injectSGNLNamespaceModel (nowStr uuid : String) (jobContext : JValue) : JValue :=
  let sgnlOld := jGetField jobContext "sgnl"
  let timeOld := match sgnlOld with | some s => jGetField s "time" | none => none
  let randomOld := match sgnlOld with | some s => jGetField s "random" | none => none
  let timeFields := jfSpreadInto (.fcons "now" (.str nowStr) .nil)
      (match timeOld with | some t => spreadFields t | none => .nil)
  let randomFields := jfSpreadInto (.fcons "uuid" (.str uuid) .nil)
      (match randomOld with | some r => spreadFields r | none => .nil)
  let sgnlFields := jfSpreadInto
      (jfSpreadInto .nil (match sgnlOld with | some s => spreadFields s | none => .nil))
      (.fcons "time" (.obj timeFields) (.fcons "random" (.obj randomFields) .nil))
  .obj (jfSpreadInto (jfSpreadInto .nil (spreadFields jobContext))
      (.fcons "sgnl" (.obj sgnlFields) .nil))

/-- Keep only elements that are not the empty string, modelling
`resolved.filter(item => item !== "")` (`dist/index.js` line 517). -/
def jlFilterNonEmpty : JList → JList
  | .nil => .nil
  | .cons x xs => if isEmptyStr x then jlFilterNonEmpty xs else .cons x (jlFilterNonEmpty xs)

mutual
/-- Recursive resolution of `resolveValue` (`dist/index.js` lines 507-539):
strings go through `resolveTemplateString`; arrays are mapped and, under
the omit option, empty-string elements dropped; object entries are mapped
and, under the omit option, empty-string values skipped (their errors kept);
other primitives pass through. -/
def resolveValue (ctx : JValue) (omitOpt : Bool) : JValue → JValue × List String
  | .str s =>
    let r := resolveTemplateString s ctx omitOpt
    (.str r.1, r.2)
  | .num n => (.num n, [])
  | .jbool b => (.jbool b, [])
  | .jnull => (.jnull, [])
  | .arr xs =>
    let r := resolveJList ctx omitOpt xs
    (.arr (if omitOpt then jlFilterNonEmpty r.1 else r.1), r.2)
  | .obj fs =>
    let r := resolveJFields ctx omitOpt fs
    (.obj r.1, r.2)
def resolveJList (ctx : JValue) (omitOpt : Bool) : JList → JList × List String
  | .nil => (.nil, [])
  | .cons x xs =>
    let rx := resolveValue ctx omitOpt x
    let rxs := resolveJList ctx omitOpt xs
    (.cons rx.1 rxs.1, rx.2 ++ rxs.2)
def resolveJFields (ctx : JValue) (omitOpt : Bool) : JFields → JFields × List String
  | .nil => (.nil, [])
  | .fcons k v fs =>
    let rv := resolveValue ctx omitOpt v
    let rfs := resolveJFields ctx omitOpt fs
    (if omitOpt && isEmptyStr rv.1 then rfs.1 else .fcons k rv.1 rfs.1, rv.2 ++ rfs.2)
end

/-- Context actually used for resolution (`dist/index.js` line 500):
falsy contexts are replaced by the empty object, then the SGNL namespace is
injected unless disabled. -/
def effectiveContext (nowStr uuid : String) (jobContext : JValue) (inject : Bool) : JValue :=
  let base := if jsFalsy jobContext then JValue.obj .nil else jobContext
  if inject then injectSGNLNamespaceModel nowStr uuid base else base

/-- Model of `resolveJSONPathTemplates(input, jobContext, options)`
(`dist/index.js` lines 493-544), with the per-call timestamp and UUID as
explicit parameters. -/
def resolveJSONPathTemplates (nowStr uuid : String) (input : JValue)
    (jobContext : JValue) (omitOpt inject : Bool) : JValue × List String :=
  resolveValue (effectiveContext nowStr uuid jobContext inject) omitOpt input

/-- Specification-side outcome of one template occurrence: the error message
it contributes, if any (missing path, or value rendering empty). -/
def tokErr (ctx : JValue) : Tok → Option String
  | .lit _ => none
  | .tmpl p =>
    match extractJSONPathValue ctx p with
    | none => some (notFoundMsg p)
    | some v => if valueToString v = "" then some (emptyMsg p) else none

/-- Specification-side replacement text of one token: literal characters
pass through; an unresolved placeholder becomes the marker (or the empty
string for an exact template under the omit option); a resolved placeholder
becomes its rendered value. -/
def tokText (ctx : JValue) (isExact omitOpt : Bool) : Tok → String
  | .lit c => String.singleton c
  | .tmpl p =>
    match extractJSONPathValue ctx p with
    | none => if isExact && omitOpt then "" else NO_VALUE_PLACEHOLDER
    | some v => valueToString v

/-- Literal-character tokens (no template match). -/
def isLitTok : Tok → Bool
  | .lit _ => true
  | .tmpl _ => false

/-- Number of unresolved-or-empty placeholder occurrences in one string. -/
def stringBadCount (ctx : JValue) (s : String) : Nat :=
  ((tokenize s).filter (fun t => (tokErr ctx t).isSome)).length

mutual
/-- Number of unresolved-or-empty placeholder occurrences in a whole input
tree. -/
def valueBadCount (ctx : JValue) : JValue → Nat
  | .str s => stringBadCount ctx s
  | .num _ => 0
  | .jbool _ => 0
  | .jnull => 0
  | .arr xs => listBadCount ctx xs
  | .obj fs => fieldsBadCount ctx fs
def listBadCount (ctx : JValue) : JList → Nat
  | .nil => 0
  | .cons x xs => valueBadCount ctx x + listBadCount ctx xs
def fieldsBadCount (ctx : JValue) : JFields → Nat
  | .nil => 0
  | .fcons _ v fs => valueBadCount ctx v + fieldsBadCount ctx fs
end

mutual
/-- No string anywhere in the tree contains a template occurrence. -/
def noTemplatesValue : JValue → Bool
  | .str s => (tokenize s).all isLitTok
  | .num _ => true
  | .jbool _ => true
  | .jnull => true
  | .arr xs => noTemplatesList xs
  | .obj fs => noTemplatesFields fs
def noTemplatesList : JList → Bool
  | .nil => true
  | .cons x xs => noTemplatesValue x && noTemplatesList xs
def noTemplatesFields : JFields → Bool
  | .nil => true
  | .fcons _ v fs => noTemplatesValue v && noTemplatesFields fs
end

mutual
/-- No direct member of any mapping or sequence in the tree is the empty
string. -/
def noEmptyMembers : JValue → Bool
  | .str _ => true
  | .num _ => true
  | .jbool _ => true
  | .jnull => true
  | .arr xs => noEmptyMembersList xs
  | .obj fs => noEmptyMembersFields fs
def noEmptyMembersList : JList → Bool
  | .nil => true
  | .cons x xs => !isEmptyStr x && noEmptyMembers x && noEmptyMembersList xs
def noEmptyMembersFields : JFields → Bool
  | .nil => true
  | .fcons _ v fs => !isEmptyStr v && noEmptyMembers v && noEmptyMembersFields fs
end

/-!
Theorems.  First the transmission client (claims C1-C5), then the
template resolver (claims C6-C10).
-/

theorem optOr_none_right {α : Type} (a : Option α) : optOr a none = a := by
  cases a <;> rfl

theorem optOr_some_absorb {α : Type} (a : Option α) (y : α) (z : Option α) :
    optOr (optOr a (some y)) z = optOr a (some y) := by
  cases a <;> rfl

theorem recentResp_succ (env : Nat → AttemptOutcome) (a f : Nat) :
    recentResp env a (f + 1) =
      optOr (recentResp env (a + 1) f)
        (match env a with | .response st => some st | _ => none) := by
  cases h : recentResp env (a + 1) f <;> simp [recentResp, h, optOr]

theorem lastThrow_succ (env : Nat → AttemptOutcome) (a f : Nat) :
    lastThrow env a (f + 1) =
      optOr (lastThrow env (a + 1) f)
        (match env a with
         | .abortError => some ThrowKind.timeout
         | .networkError => some ThrowKind.network
         | _ => none) := by
  cases h : lastThrow env (a + 1) f <;> simp [lastThrow, h, optOr]

/-- Exhaustion behaviour of the attempt loop: while every attempt in the
window keeps the loop going (transport exception, or rejected retryable
status), the loop runs through all remaining attempts and ends in the
post-loop logic applied to the most recent response and most recent
classified transport error. -/
theorem transmitFrom_exhaust (env : Nat → AttemptOutcome) (cfg : RetryConfig)
    (vs : Nat → Bool) :
    ∀ fuel attempt lastResp lastErr, 1 ≤ fuel →
    attempt + fuel = cfg.maxAttempts + 1 →
    (∀ k, attempt ≤ k → k ≤ cfg.maxAttempts → retryEligibleB cfg vs (env k) = true) →
    transmitFrom env cfg vs attempt fuel lastResp lastErr =
      (postLoop (optOr (recentResp env attempt fuel) lastResp)
        (optOr (lastThrow env attempt fuel) lastErr), fuel) := by
  intro fuel
  induction fuel with
  | zero => intro attempt lastResp lastErr h1; omega
  | succ f ih =>
    intro attempt lastResp lastErr _ hsum helig
    have hattempt : attempt ≤ cfg.maxAttempts := by omega
    have helig0 : retryEligibleB cfg vs (env attempt) = true :=
      helig attempt (le_refl attempt) hattempt
    rcases Nat.eq_zero_or_pos f with hf | hf
    · subst hf
      have hlast : attempt = cfg.maxAttempts := by omega
      cases henv : env attempt with
      | response st =>
        have hel : (!vs st && cfg.retryableStatuses.contains st) = true := by
          rw [henv] at helig0; exact helig0
        have hvs : vs st = false := by
          rcases Bool.and_eq_true_iff.mp hel with ⟨h1, _⟩
          simpa using h1
        have hcont : cfg.retryableStatuses.contains st = true :=
          (Bool.and_eq_true_iff.mp hel).2
        have hmem : st ∈ cfg.retryableStatuses := by simpa using hcont
        have hsr : shouldRetry (some st) attempt cfg = false := by
          simp [shouldRetry, hlast]
        simp [transmitFrom, henv, hvs, hsr, recentResp, lastThrow, optOr, postLoop, hcont, hmem]
      | abortError =>
        have hsr : shouldRetry none attempt cfg = false := by
          simp [shouldRetry, hlast]
        simp [transmitFrom, henv, hsr, recentResp, lastThrow, optOr, postLoop]
      | networkError =>
        have hsr : shouldRetry none attempt cfg = false := by
          simp [transmitFrom, shouldRetry, hlast]
        simp [transmitFrom, henv, hsr, recentResp, lastThrow, optOr, postLoop]
    · have hlt : ¬ (cfg.maxAttempts ≤ attempt) := by omega
      have ihx := ih (attempt + 1)
      have helig1 : ∀ k, attempt + 1 ≤ k → k ≤ cfg.maxAttempts →
          retryEligibleB cfg vs (env k) = true := fun k hk1 hk2 => helig k (by omega) hk2
      cases henv : env attempt with
      | response st =>
        have hel : (!vs st && cfg.retryableStatuses.contains st) = true := by
          rw [henv] at helig0; exact helig0
        have hvs : vs st = false := by
          rcases Bool.and_eq_true_iff.mp hel with ⟨h1, _⟩
          simpa using h1
        have hcont : cfg.retryableStatuses.contains st = true :=
          (Bool.and_eq_true_iff.mp hel).2
        have hmem : st ∈ cfg.retryableStatuses := by simpa using hcont
        have hsr : shouldRetry (some st) attempt cfg = true := by
          simp [shouldRetry, hlt, hcont, hmem]
        have hrec := ihx (some st) lastErr hf (by omega) helig1
        simp only [transmitFrom, henv, hvs, hsr, if_false, if_true, Bool.false_eq_true,
          ite_false, ite_true, hrec]
        rw [recentResp_succ, lastThrow_succ, henv]
        simp only [optOr_some_absorb, optOr_none_right]
      | abortError =>
        have hsr : shouldRetry none attempt cfg = true := by
          simp [shouldRetry, hlt]
        have hrec := ihx lastResp (some ThrowKind.timeout) hf (by omega) helig1
        simp only [transmitFrom, henv, hsr, ite_true, hrec]
        rw [recentResp_succ, lastThrow_succ, henv]
        simp only [optOr_some_absorb, optOr_none_right]
      | networkError =>
        have hsr : shouldRetry none attempt cfg = true := by
          simp [shouldRetry, hlt]
        have hrec := ihx lastResp (some ThrowKind.network) hf (by omega) helig1
        simp only [transmitFrom, henv, hsr, ite_true, hrec]
        rw [recentResp_succ, lastThrow_succ, henv]
        simp only [optOr_some_absorb, optOr_none_right]

theorem recentResp_const_response (st : Nat) :
    ∀ f a, 1 ≤ f → recentResp (fun _ => AttemptOutcome.response st) a f = some st := by
  intro f
  induction f with
  | zero => intro a h; omega
  | succ g ih =>
    intro a _
    rcases Nat.eq_zero_or_pos g with hg | hg
    · subst hg; simp [recentResp]
    · simp [recentResp, ih (a + 1) hg]

theorem recentResp_const_network :
    ∀ f a, recentResp (fun _ => AttemptOutcome.networkError) a f = none := by
  intro f
  induction f with
  | zero => intro a; rfl
  | succ g ih => intro a; simp [recentResp, ih (a + 1)]

theorem lastThrow_const_network :
    ∀ f a, 1 ≤ f → lastThrow (fun _ => AttemptOutcome.networkError) a f = some ThrowKind.network := by
  intro f
  induction f with
  | zero => intro a h; omega
  | succ g ih =>
    intro a _
    rcases Nat.eq_zero_or_pos g with hg | hg
    · subst hg; simp [lastThrow]
    · simp [lastThrow, ih (a + 1) hg]

/-- C1: for any token whose shape is not three dot-separated nonempty
base64url segments, or any URL that does not parse, `transmitSET` throws
`ValidationError` with zero `fetch` calls issued (and hence the failure is
never retried). -/
theorem transmitSET_validation_guard (jwt : String) (urlOk : Bool)
    (env : Nat → AttemptOutcome) (cfg : RetryConfig) (vs : Nat → Bool)
    (h : isValidSET jwt = false ∨ urlOk = false) :
    transmitSETModel jwt urlOk env cfg vs = (TransmitOutcome.thrownValidation, 0) := by
  rcases h with h | h
  · simp [transmitSETModel, h]
  · cases hv : isValidSET jwt <;> simp [transmitSETModel, h, hv]

theorem transmitSET_validation_guard_witness :
    transmitSETModel "not-a-jwt" true (fun _ => AttemptOutcome.response 200)
        DEFAULT_RETRY_CONFIG defaultValidateStatus = (TransmitOutcome.thrownValidation, 0)
    ∧ transmitSETModel "a..c" true (fun _ => AttemptOutcome.response 200)
        DEFAULT_RETRY_CONFIG defaultValidateStatus = (TransmitOutcome.thrownValidation, 0)
    ∧ transmitSETModel "a.b.c" false (fun _ => AttemptOutcome.response 200)
        DEFAULT_RETRY_CONFIG defaultValidateStatus = (TransmitOutcome.thrownValidation, 0) :=
  ⟨transmitSET_validation_guard _ _ _ _ _ (Or.inl (by decide)),
   transmitSET_validation_guard _ _ _ _ _ (Or.inl (by decide)),
   transmitSET_validation_guard _ _ _ _ _ (Or.inr rfl)⟩

/-- C2 counterexample: with `maxAttempts = 2`, a retryable 503 response on
attempt 1 and a network error on attempt 2 (so the last observed outcome is
a transport exception), `transmitSET` returns a terminal failed result
derived from the earlier response instead of throwing the NetworkError the
claim requires. -/
theorem transmitSET_exhaustion_counterexample :
    transmitSETModel "a.b.c" true
        (fun k => if k = 1 then AttemptOutcome.response 503 else AttemptOutcome.networkError)
        { maxAttempts := 2, retryableStatuses := [429, 502, 503, 504],
          backoffMs := 1000, maxBackoffMs := 10000, backoffMultiplier := 2 }
        defaultValidateStatus = (TransmitOutcome.terminalFailed 503 true, 2)
    ∧ TransmitOutcome.terminalFailed 503 true ≠ TransmitOutcome.thrownNetwork := by
  exact ⟨rfl, by decide⟩

/-- C2 (amended): when every attempt ends in a retry-eligible outcome and
the budget is exhausted, the result is the post-loop policy applied to the
most recent HTTP response observed in ANY attempt (terminal failed result
with `retryable` forced true) and, only when no attempt ever produced a
response, the most recent classified transport exception is thrown; exactly
`maxAttempts` fetches are issued.  In particular a server answering 503
every time yields `(terminalFailed 503 true)` and a connection-refused
condition on every attempt throws `NetworkError`. -/
theorem transmitSET_exhaustion_policy (env : Nat → AttemptOutcome) (cfg : RetryConfig)
    (vs : Nat → Bool) (jwt : String) (hjwt : isValidSET jwt = true)
    (hmax : 1 ≤ cfg.maxAttempts)
    (helig : ∀ k, 1 ≤ k → k ≤ cfg.maxAttempts → retryEligibleB cfg vs (env k) = true) :
    transmitSETModel jwt true env cfg vs =
      (postLoop (recentResp env 1 cfg.maxAttempts) (lastThrow env 1 cfg.maxAttempts),
        cfg.maxAttempts) := by
  have h := transmitFrom_exhaust env cfg vs cfg.maxAttempts 1 none none hmax
    (by omega) (fun k hk1 hk2 => helig k hk1 hk2)
  rw [optOr_none_right, optOr_none_right] at h
  simp [transmitSETModel, hjwt, h]

theorem transmitSET_exhaustion_policy_witness :
    transmitSETModel "a.b.c" true (fun _ => AttemptOutcome.response 503)
        DEFAULT_RETRY_CONFIG defaultValidateStatus = (TransmitOutcome.terminalFailed 503 true, 3)
    ∧ transmitSETModel "a.b.c" true (fun _ => AttemptOutcome.networkError)
        DEFAULT_RETRY_CONFIG defaultValidateStatus = (TransmitOutcome.thrownNetwork, 3) := by
  constructor
  · have h := transmitSET_exhaustion_policy (fun _ => AttemptOutcome.response 503)
      DEFAULT_RETRY_CONFIG defaultValidateStatus "a.b.c" (by decide) (by decide)
      (fun k _ _ => by rfl)
    rw [h]
    decide
  · have h := transmitSET_exhaustion_policy (fun _ => AttemptOutcome.networkError)
      DEFAULT_RETRY_CONFIG defaultValidateStatus "a.b.c" (by decide) (by decide)
      (fun k _ _ => by rfl)
    rw [h]
    decide

/-- C3 counterexample: with the perfectly ordinary config
`backoffMs = maxBackoffMs = 10000` and the jitter draw `0.9`, the very first
backoff delay is 12000 ms, strictly above `maxBackoffMs = 10000`: the code
clamps BEFORE jittering, so the delay can exceed `maxBackoffMs` by up to
25 percent. -/
theorem calculateBackoff_exceeds_max_counterexample :
    calculateBackoff 1
        { maxAttempts := 3, retryableStatuses := [429, 502, 503, 504],
          backoffMs := 10000, maxBackoffMs := 10000, backoffMultiplier := 2 }
        none (9/10) = 12000
    ∧ ¬ ((12000 : ℚ) ≤ 10000) := by
  constructor
  · show backoffNoHint 1 _ (9/10) = 12000
    unfold backoffNoHint
    norm_num
  · norm_num

/-- Shared bound for the no-hint branch: for nonnegative config values and a
jitter draw in `[0, 1)`, the jittered delay is a nonnegative integer at most
`5/4 * maxBackoffMs`. -/
theorem backoffNoHint_bounds (attempt : Nat) (cfg : RetryConfig) (rand : ℚ)
    (hb : 0 ≤ cfg.backoffMs) (hm : 0 ≤ cfg.backoffMultiplier)
    (hmax : 0 ≤ cfg.maxBackoffMs) (hr0 : 0 ≤ rand) (hr1 : rand < 1) :
    0 ≤ backoffNoHint attempt cfg rand
    ∧ backoffNoHint attempt cfg rand ≤ 5/4 * cfg.maxBackoffMs := by
  unfold backoffNoHint
  set e := cfg.backoffMs * cfg.backoffMultiplier ^ (attempt - 1) with he
  have he0 : 0 ≤ e := mul_nonneg hb (pow_nonneg hm _)
  set c := min e cfg.maxBackoffMs with hc
  have hc0 : 0 ≤ c := le_min he0 hmax
  have hcmax : c ≤ cfg.maxBackoffMs := min_le_right _ _
  have hval : rand * ((c + c * (1/4)) - (c - c * (1/4))) + (c - c * (1/4))
      = rand * (c / 2) + 3/4 * c := by ring
  have hlow : (0 : ℚ) ≤ rand * (c / 2) + 3/4 * c := by
    have h1 : 0 ≤ rand * (c / 2) := mul_nonneg hr0 (by linarith)
    linarith
  have hhigh : rand * (c / 2) + 3/4 * c ≤ 5/4 * cfg.maxBackoffMs := by
    nlinarith
  constructor
  · simp only [hval]
    have h2 : 0 ≤ ⌊rand * (c / 2) + 3/4 * c⌋ := Int.floor_nonneg.mpr hlow
    exact_mod_cast h2
  · simp only [hval]
    calc ((⌊rand * (c / 2) + 3/4 * c⌋ : ℤ) : ℚ)
        ≤ rand * (c / 2) + 3/4 * c := Int.floor_le _
      _ ≤ 5/4 * cfg.maxBackoffMs := hhigh

/-- C3 (amended): for every attempt, every config with nonnegative
`backoffMs`, `backoffMultiplier` and `maxBackoffMs`, every optional server
hint and every jitter draw in `[0, 1)`, the delay returned by
`calculateBackoff` lies in `[0, 5/4 * maxBackoffMs]` (and in
`[0, maxBackoffMs]` when a positive hint is supplied); the original
`[0, maxBackoffMs]` bound fails because jitter is applied after clamping. -/
theorem calculateBackoff_jitter_bounds (attempt : Nat) (cfg : RetryConfig)
    (hint : Option ℚ) (rand : ℚ)
    (hb : 0 ≤ cfg.backoffMs) (hm : 0 ≤ cfg.backoffMultiplier)
    (hmax : 0 ≤ cfg.maxBackoffMs) (hr0 : 0 ≤ rand) (hr1 : rand < 1) :
    0 ≤ calculateBackoff attempt cfg hint rand
    ∧ calculateBackoff attempt cfg hint rand ≤ 5/4 * cfg.maxBackoffMs
    ∧ (∀ h : ℚ, hint = some h → 0 < h →
        calculateBackoff attempt cfg hint rand ≤ cfg.maxBackoffMs) := by
  have hnh := backoffNoHint_bounds attempt cfg rand hb hm hmax hr0 hr1
  match hint with
  | none =>
    refine ⟨hnh.1, hnh.2, ?_⟩
    intro h hcontra
    exact absurd hcontra (by simp)
  | some h =>
    by_cases hpos : 0 < h
    · have heq : calculateBackoff attempt cfg (some h) rand = min h cfg.maxBackoffMs := by
        simp [calculateBackoff, hpos]
      refine ⟨?_, ?_, ?_⟩
      · rw [heq]; exact le_min (le_of_lt hpos) hmax
      · rw [heq]
        calc min h cfg.maxBackoffMs ≤ cfg.maxBackoffMs := min_le_right _ _
          _ ≤ 5/4 * cfg.maxBackoffMs := by linarith
      · intro h2 hh2 _
        rw [heq]
        exact min_le_right _ _
    · have heq : calculateBackoff attempt cfg (some h) rand = backoffNoHint attempt cfg rand := by
        simp [calculateBackoff, hpos]
      refine ⟨by rw [heq]; exact hnh.1, by rw [heq]; exact hnh.2, ?_⟩
      intro h2 hh2 hpos2
      rw [Option.some_inj] at hh2
      subst hh2
      exact absurd hpos2 hpos

theorem calculateBackoff_jitter_bounds_witness :
    0 ≤ calculateBackoff 2 DEFAULT_RETRY_CONFIG none (1/2)
    ∧ calculateBackoff 2 DEFAULT_RETRY_CONFIG none (1/2)
        ≤ 5/4 * DEFAULT_RETRY_CONFIG.maxBackoffMs := by
  have h := calculateBackoff_jitter_bounds 2 DEFAULT_RETRY_CONFIG none (1/2)
    (by norm_num [DEFAULT_RETRY_CONFIG]) (by norm_num [DEFAULT_RETRY_CONFIG])
    (by norm_num [DEFAULT_RETRY_CONFIG]) (by norm_num) (by norm_num)
  exact ⟨h.1, h.2.1⟩

/-- C4 counterexample: the integer-seconds branch of `parseRetryAfter` does
not filter non-positive values: the header `"0"` yields `some 0` and the
header `"-5"` yields `some (-5000)`, while the claim requires `none` for
every non-positive result. -/
theorem parseRetryAfter_nonpositive_counterexample :
    parseRetryAfter (fun _ => none) 0 "0" = some 0
    ∧ parseRetryAfter (fun _ => none) 0 "-5" = some (-5000) :=
  ⟨rfl, rfl⟩

/-- C4 (amended): an empty (absent) header yields no hint; a header the JS
`parseInt` can read takes precedence and yields its value times 1000
UNCONDITIONALLY, even when zero or negative; otherwise the header is parsed
as an HTTP date and only in this date branch are non-positive or unparseable
deltas mapped to no hint. -/
theorem parseRetryAfter_characterization (dateParse : String → Option Int)
    (now : Int) (s : String) :
    parseRetryAfter dateParse now "" = none
    ∧ (∀ n : Int, s ≠ "" → jsParseInt s = some n →
        parseRetryAfter dateParse now s = some (n * 1000))
    ∧ (s ≠ "" → jsParseInt s = none →
        parseRetryAfter dateParse now s =
          match dateParse s with
          | some t => if 0 < t - now then some (t - now) else none
          | none => none) := by
  refine ⟨rfl, ?_, ?_⟩
  · intro n hne hint
    simp [parseRetryAfter, hne, hint]
  · intro hne hint
    simp [parseRetryAfter, hne, hint]

theorem parseRetryAfter_characterization_witness :
    parseRetryAfter (fun _ => some 7000) 2000 "oops" = some 5000
    ∧ parseRetryAfter (fun _ => none) 0 "120abc" = some 120000 := by
  constructor
  · have h := (parseRetryAfter_characterization (fun _ => some 7000) 2000 "oops").2.2
      (by decide) (by rfl)
    rw [h]
    norm_num
  · have h := (parseRetryAfter_characterization (fun _ => none) 0 "120abc").2.1
      120 (by decide) (by rfl)
    rw [h]
    norm_num

/-- C5: a positive server hint produces exactly `min(hint, maxBackoffMs)`
with no jitter; the header value `"2"` parses to a 2000 ms hint, so the
next delay is exactly `min 2000 maxBackoffMs`; with no hint the delay is
the floor of the value `clamped * 3/4 + rand * (clamped / 2)`, which is the
uniform-jitter transport of `rand` onto plus-or-minus 25 percent of the
clamped exponential delay, and it is a nonnegative integer. -/
theorem calculateBackoff_hint_and_jitter :
    (∀ (attempt : Nat) (cfg : RetryConfig) (h rand : ℚ), 0 < h →
        calculateBackoff attempt cfg (some h) rand = min h cfg.maxBackoffMs)
    ∧ (∀ (dateParse : String → Option Int) (now : Int),
        parseRetryAfter dateParse now "2" = some 2000)
    ∧ (∀ (attempt : Nat) (cfg : RetryConfig) (rand : ℚ),
        calculateBackoff attempt cfg (some 2000) rand = min 2000 cfg.maxBackoffMs)
    ∧ (∀ (attempt : Nat) (cfg : RetryConfig) (rand : ℚ),
        0 ≤ cfg.backoffMs → 0 ≤ cfg.backoffMultiplier → 0 ≤ cfg.maxBackoffMs →
        0 ≤ rand → rand < 1 →
        calculateBackoff attempt cfg none rand =
          ((⌊(min (cfg.backoffMs * cfg.backoffMultiplier ^ (attempt - 1)) cfg.maxBackoffMs) * (3/4)
              + rand * ((min (cfg.backoffMs * cfg.backoffMultiplier ^ (attempt - 1)) cfg.maxBackoffMs) / 2)⌋ : ℤ) : ℚ)
        ∧ |((min (cfg.backoffMs * cfg.backoffMultiplier ^ (attempt - 1)) cfg.maxBackoffMs) * (3/4)
              + rand * ((min (cfg.backoffMs * cfg.backoffMultiplier ^ (attempt - 1)) cfg.maxBackoffMs) / 2))
            - min (cfg.backoffMs * cfg.backoffMultiplier ^ (attempt - 1)) cfg.maxBackoffMs|
            ≤ (min (cfg.backoffMs * cfg.backoffMultiplier ^ (attempt - 1)) cfg.maxBackoffMs) * (1/4)
        ∧ 0 ≤ calculateBackoff attempt cfg none rand) := by
  refine ⟨?_, ?_, ?_, ?_⟩
  · intro attempt cfg h rand hpos
    simp [calculateBackoff, hpos]
  · intro dateParse now
    rfl
  · intro attempt cfg rand
    simp [calculateBackoff]
  · intro attempt cfg rand hb hm hmax hr0 hr1
    have hc0 : 0 ≤ min (cfg.backoffMs * cfg.backoffMultiplier ^ (attempt - 1)) cfg.maxBackoffMs :=
      le_min (mul_nonneg hb (pow_nonneg hm _)) hmax
    refine ⟨?_, ?_, (backoffNoHint_bounds attempt cfg rand hb hm hmax hr0 hr1).1⟩
    · show backoffNoHint attempt cfg rand = _
      unfold backoffNoHint
      ring_nf
    · rw [abs_le]
      set c := min (cfg.backoffMs * cfg.backoffMultiplier ^ (attempt - 1)) cfg.maxBackoffMs
      constructor <;> nlinarith

theorem calculateBackoff_hint_and_jitter_witness :
    calculateBackoff 1 DEFAULT_RETRY_CONFIG (some 2) (1/3)
        = min 2 DEFAULT_RETRY_CONFIG.maxBackoffMs
    ∧ parseRetryAfter (fun _ => none) 0 "2" = some 2000
    ∧ 0 ≤ calculateBackoff 1 DEFAULT_RETRY_CONFIG none (1/2) := by
  refine ⟨calculateBackoff_hint_and_jitter.1 1 _ 2 (1/3) (by norm_num),
    calculateBackoff_hint_and_jitter.2.1 _ _,
    (calculateBackoff_hint_and_jitter.2.2.2 1 DEFAULT_RETRY_CONFIG (1/2)
      (by norm_num [DEFAULT_RETRY_CONFIG]) (by norm_num [DEFAULT_RETRY_CONFIG])
      (by norm_num [DEFAULT_RETRY_CONFIG]) (by norm_num) (by norm_num)).2.2⟩

theorem resolveTok_fst (ctx : JValue) (isExact omitOpt : Bool) (t : Tok) :
    (resolveTok ctx isExact omitOpt t).1 = tokText ctx isExact omitOpt t := by
  cases t with
  | lit c => rfl
  | tmpl p =>
    cases hx : extractJSONPathValue ctx p with
    | none => simp [resolveTok, tokText, hx]
    | some v =>
      by_cases hv : valueToString v = "" <;>
        simp [resolveTok, tokText, hx, hv]

theorem resolveTok_snd (ctx : JValue) (isExact omitOpt : Bool) (t : Tok) :
    (resolveTok ctx isExact omitOpt t).2 = (tokErr ctx t).toList := by
  cases t with
  | lit c => rfl
  | tmpl p =>
    cases hx : extractJSONPathValue ctx p with
    | none => simp [resolveTok, tokErr, hx]
    | some v =>
      by_cases hv : valueToString v = "" <;>
        simp [resolveTok, tokErr, hx, hv]

theorem flatten_toList_filterMap (ctx : JValue) : ∀ toks : List Tok,
    (toks.map (fun t => (tokErr ctx t).toList)).flatten = toks.filterMap (tokErr ctx) := by
  intro toks
  induction toks with
  | nil => rfl
  | cons t ts ih =>
    cases h : tokErr ctx t <;> simp [List.filterMap_cons, h, ih]

theorem resolveTemplateString_errors_eq (s : String) (ctx : JValue) (omitOpt : Bool) :
    (resolveTemplateString s ctx omitOpt).2 = (tokenize s).filterMap (tokErr ctx) := by
  show (List.map _ (tokenize s)).flatten = _
  rw [funext (resolveTok_snd ctx (isExactTemplate s) omitOpt)]
  exact flatten_toList_filterMap ctx (tokenize s)

theorem resolveTemplateString_text_eq (s : String) (ctx : JValue) (omitOpt : Bool) :
    (resolveTemplateString s ctx omitOpt).1
      = strConcat ((tokenize s).map (tokText ctx (isExactTemplate s) omitOpt)) := by
  show strConcat (List.map _ (tokenize s)) = _
  rw [funext (resolveTok_fst ctx (isExactTemplate s) omitOpt)]

/-- C6: for each placeholder occurrence in a resolved string, a missing
path contributes exactly the message `failed to extract field <path>: field
not found` and is replaced by the marker text (or the empty string for an
exact template under the omit option), and a path rendering empty
contributes exactly the `field is empty` message; the replacement text and
the error list are exactly the per-occurrence maps `tokText` and `tokErr`
folded over the match sequence.  In particular resolving
`x = template($.missing.path)` in the empty context yields the marker and
the single `field not found` message. -/
theorem resolveTemplateString_per_placeholder :
    (∀ (s : String) (ctx : JValue) (omitOpt : Bool),
        (resolveTemplateString s ctx omitOpt).2 = (tokenize s).filterMap (tokErr ctx)
        ∧ (resolveTemplateString s ctx omitOpt).1
            = strConcat ((tokenize s).map (tokText ctx (isExactTemplate s) omitOpt)))
    ∧ (∀ nowStr uuid : String,
        resolveJSONPathTemplates nowStr uuid
            (.obj (.fcons "x" (.str "\x7b$.missing.path\x7d") .nil)) (.obj .nil) false true
          = (.obj (.fcons "x" (.str NO_VALUE_PLACEHOLDER) .nil),
             ["failed to extract field \x27$.missing.path\x27: field not found"])) :=
  ⟨fun s ctx omitOpt =>
    ⟨resolveTemplateString_errors_eq s ctx omitOpt,
     resolveTemplateString_text_eq s ctx omitOpt⟩,
   fun _ _ => rfl⟩

theorem filterMap_length_filter_isSome (ctx : JValue) : ∀ toks : List Tok,
    (toks.filterMap (tokErr ctx)).length
      = ((toks.filter (fun t => (tokErr ctx t).isSome))).length := by
  intro toks
  induction toks with
  | nil => rfl
  | cons t ts ih =>
    cases h : tokErr ctx t <;>
      simp [List.filterMap_cons, List.filter_cons, h, ih]

theorem resolveTemplateString_err_length (s : String) (ctx : JValue) (omitOpt : Bool) :
    (resolveTemplateString s ctx omitOpt).2.length = stringBadCount ctx s := by
  rw [resolveTemplateString_errors_eq]
  exact filterMap_length_filter_isSome ctx (tokenize s)

mutual
theorem resolveValue_err_length (ctx : JValue) (omitOpt : Bool) :
    ∀ v : JValue, (resolveValue ctx omitOpt v).2.length = valueBadCount ctx v
  | .str s => by
    simpa [resolveValue, valueBadCount] using resolveTemplateString_err_length s ctx omitOpt
  | .num _ => rfl
  | .jbool _ => rfl
  | .jnull => rfl
  | .arr xs => by
    simp [resolveValue, valueBadCount, resolveJList_err_length ctx omitOpt xs]
  | .obj fs => by
    simp [resolveValue, valueBadCount, resolveJFields_err_length ctx omitOpt fs]
theorem resolveJList_err_length (ctx : JValue) (omitOpt : Bool) :
    ∀ xs : JList, (resolveJList ctx omitOpt xs).2.length = listBadCount ctx xs
  | .nil => rfl
  | .cons x xs => by
    simp [resolveJList, listBadCount, resolveValue_err_length ctx omitOpt x,
      resolveJList_err_length ctx omitOpt xs]
theorem resolveJFields_err_length (ctx : JValue) (omitOpt : Bool) :
    ∀ fs : JFields, (resolveJFields ctx omitOpt fs).2.length = fieldsBadCount ctx fs
  | .nil => rfl
  | .fcons k v fs => by
    simp [resolveJFields, fieldsBadCount, resolveValue_err_length ctx omitOpt v,
      resolveJFields_err_length ctx omitOpt fs]
end

/-- C7: for every finite input tree, context and options, the resolver
returns a (result, errors) pair by construction (it is a total function;
nothing in the model can throw), and the error list carries exactly one
message per unresolved or empty-valued placeholder occurrence in the
input. -/
theorem resolveJSONPathTemplates_total_error_count (nowStr uuid : String)
    (input jobContext : JValue) (omitOpt inject : Bool) :
    (resolveJSONPathTemplates nowStr uuid input jobContext omitOpt inject).2.length
      = valueBadCount (effectiveContext nowStr uuid jobContext inject) input :=
  resolveValue_err_length _ _ input

theorem filterMap_const_none {α β : Type} : ∀ l : List α,
    l.filterMap (fun _ => (none : Option β)) = [] := by
  intro l
  induction l <;> simp [List.filterMap_cons, *]

theorem tokenizeF_all_lit : ∀ (fuel : Nat) (cs : List Char), cs.length ≤ fuel →
    (tokenizeF fuel cs).all isLitTok = true → tokenizeF fuel cs = cs.map Tok.lit := by
  intro fuel
  induction fuel with
  | zero =>
    intro cs h1 _
    have h0 : cs = [] := List.length_eq_zero.mp (Nat.le_zero.mp h1)
    subst h0
    rfl
  | succ f ih =>
    intro cs h1 h2
    match cs with
    | [] => rfl
    | [c] => rfl
    | a :: b :: rest =>
      have hlen : (b :: rest).length ≤ f := by
        simp at h1 ⊢
        omega
      by_cases ha : a = lbraceC
      · by_cases hb : b = dollarC
        · rcases hr : rest.dropWhile (fun c => c != rbraceC) with _ | ⟨x, tail⟩
          · have heq : tokenizeF (f + 1) (a :: b :: rest)
                = Tok.lit a :: tokenizeF f (b :: rest) := by
              simp [tokenizeF, ha, hb, hr]
            rw [heq] at h2 ⊢
            have h2x : (tokenizeF f (b :: rest)).all isLitTok = true := by
              simpa [isLitTok] using h2
            rw [ih (b :: rest) hlen h2x]
            simp
          · by_cases hbody : (rest.takeWhile (fun c => c != rbraceC)).isEmpty
            · have heq : tokenizeF (f + 1) (a :: b :: rest)
                  = Tok.lit a :: tokenizeF f (b :: rest) := by
                simp [tokenizeF, ha, hb, hr, hbody]
              rw [heq] at h2 ⊢
              have h2x : (tokenizeF f (b :: rest)).all isLitTok = true := by
                simpa [isLitTok] using h2
              rw [ih (b :: rest) hlen h2x]
              simp
            · have heq : tokenizeF (f + 1) (a :: b :: rest)
                  = Tok.tmpl (String.mk (dollarC :: rest.takeWhile (fun c => c != rbraceC)))
                      :: tokenizeF f tail := by
                simp [tokenizeF, ha, hb, hr, hbody]
              rw [heq] at h2
              simp [isLitTok] at h2
        · have heq : tokenizeF (f + 1) (a :: b :: rest)
              = Tok.lit a :: tokenizeF f (b :: rest) := by
            simp [tokenizeF, ha, hb]
          rw [heq] at h2 ⊢
          have h2x : (tokenizeF f (b :: rest)).all isLitTok = true := by
            simpa [isLitTok] using h2
          rw [ih (b :: rest) hlen h2x]
          simp
      · have heq : tokenizeF (f + 1) (a :: b :: rest)
            = Tok.lit a :: tokenizeF f (b :: rest) := by
          simp [tokenizeF, ha]
        rw [heq] at h2 ⊢
        have h2x : (tokenizeF f (b :: rest)).all isLitTok = true := by
          simpa [isLitTok] using h2
        rw [ih (b :: rest) hlen h2x]
        simp

theorem strConcat_singletons : ∀ cs : List Char,
    strConcat (cs.map (fun c => String.singleton c)) = String.mk cs := by
  intro cs
  induction cs with
  | nil => rfl
  | cons c rest ih =>
    show String.singleton c ++ strConcat (rest.map (fun c => String.singleton c))
        = String.mk (c :: rest)
    rw [ih]
    rfl

theorem resolveTemplateString_no_templates (s : String) (ctx : JValue) (omitOpt : Bool)
    (h : (tokenize s).all isLitTok = true) :
    resolveTemplateString s ctx omitOpt = (s, []) := by
  have htok : tokenize s = s.toList.map Tok.lit :=
    tokenizeF_all_lit s.toList.length s.toList (le_refl _) h
  refine Prod.ext ?_ ?_
  · show (resolveTemplateString s ctx omitOpt).1 = s
    rw [resolveTemplateString_text_eq, htok, List.map_map]
    have hcomp : (tokText ctx (isExactTemplate s) omitOpt) ∘ Tok.lit
        = (fun c => String.singleton c) := funext fun c => rfl
    rw [hcomp, strConcat_singletons]
    rfl
  · show (resolveTemplateString s ctx omitOpt).2 = []
    rw [resolveTemplateString_errors_eq, htok, List.filterMap_map]
    have hcomp : (tokErr ctx) ∘ Tok.lit = (fun _ => (none : Option String)) :=
      funext fun c => rfl
    rw [hcomp, filterMap_const_none]

theorem jlFilterNonEmpty_id : ∀ xs : JList, noEmptyMembersList xs = true →
    jlFilterNonEmpty xs = xs
  | .nil, _ => rfl
  | .cons x xs, h => by
    simp only [noEmptyMembersList, Bool.and_eq_true, Bool.not_eq_true'] at h
    simp [jlFilterNonEmpty, h.1.1, jlFilterNonEmpty_id xs h.2]

mutual
theorem resolveValue_id (ctx : JValue) (omitOpt : Bool) :
    ∀ v : JValue, noTemplatesValue v = true →
      (omitOpt = true → noEmptyMembers v = true) →
      resolveValue ctx omitOpt v = (v, [])
  | .str s, h, _ => by
    simp [resolveValue, resolveTemplateString_no_templates s ctx omitOpt
      (by simpa [noTemplatesValue] using h)]
  | .num _, _, _ => rfl
  | .jbool _, _, _ => rfl
  | .jnull, _, _ => rfl
  | .arr xs, h, h2 => by
    have hL := resolveJList_id ctx omitOpt xs (by simpa [noTemplatesValue] using h)
      (fun ho => by simpa [noEmptyMembers] using h2 ho)
    have hif : (if omitOpt then jlFilterNonEmpty xs else xs) = xs := by
      cases homit : omitOpt with
      | false => rfl
      | true =>
        exact jlFilterNonEmpty_id xs (by simpa [noEmptyMembers] using h2 homit)
    simp [resolveValue, hL, hif]
  | .obj fs, h, h2 => by
    have hF := resolveJFields_id ctx omitOpt fs (by simpa [noTemplatesValue] using h)
      (fun ho => by simpa [noEmptyMembers] using h2 ho)
    simp [resolveValue, hF]
theorem resolveJList_id (ctx : JValue) (omitOpt : Bool) :
    ∀ xs : JList, noTemplatesList xs = true →
      (omitOpt = true → noEmptyMembersList xs = true) →
      resolveJList ctx omitOpt xs = (xs, [])
  | .nil, _, _ => rfl
  | .cons x xs, h, h2 => by
    simp only [noTemplatesList, Bool.and_eq_true] at h
    have hx := resolveValue_id ctx omitOpt x h.1 (fun ho => by
      have := h2 ho
      simp only [noEmptyMembersList, Bool.and_eq_true] at this
      exact this.1.2)
    have hxs := resolveJList_id ctx omitOpt xs h.2 (fun ho => by
      have := h2 ho
      simp only [noEmptyMembersList, Bool.and_eq_true] at this
      exact this.2)
    simp [resolveJList, hx, hxs]
theorem resolveJFields_id (ctx : JValue) (omitOpt : Bool) :
    ∀ fs : JFields, noTemplatesFields fs = true →
      (omitOpt = true → noEmptyMembersFields fs = true) →
      resolveJFields ctx omitOpt fs = (fs, [])
  | .nil, _, _ => rfl
  | .fcons k v fs, h, h2 => by
    simp only [noTemplatesFields, Bool.and_eq_true] at h
    have hv := resolveValue_id ctx omitOpt v h.1 (fun ho => by
      have := h2 ho
      simp only [noEmptyMembersFields, Bool.and_eq_true] at this
      exact this.1.2)
    have hfs := resolveJFields_id ctx omitOpt fs h.2 (fun ho => by
      have := h2 ho
      simp only [noEmptyMembersFields, Bool.and_eq_true] at this
      exact this.2)
    have hcond : (omitOpt && isEmptyStr v) = false := by
      cases homit : omitOpt with
      | false => rfl
      | true =>
        have := h2 homit
        simp only [noEmptyMembersFields, Bool.and_eq_true, Bool.not_eq_true'] at this
        simp [this.1.1]
    simp [resolveJFields, hv, hfs, hcond]
end

/-- C8 counterexample: with the omit option enabled, a structure with no
placeholder at all is NOT returned unchanged: the literal empty string under
key `x` is dropped from the result (with zero errors). -/
theorem resolve_idempotence_counterexample :
    resolveJSONPathTemplates "" "" (.obj (.fcons "x" (.str "") .nil)) (.obj .nil) true true
      = (.obj .nil, [])
    ∧ JValue.obj .nil ≠ JValue.obj (.fcons "x" (.str "") .nil) := by
  refine ⟨rfl, fun h => ?_⟩
  injection h with h2
  exact JFields.noConfusion h2

/-- C8 (amended): a structure none of whose strings contains a placeholder
resolves to itself with zero errors, PROVIDED the omit option is disabled or
no mapping entry / sequence element of the structure is a literal empty
string (such entries are dropped by the omit option even without any
placeholder). -/
theorem resolve_no_placeholder_identity (nowStr uuid : String)
    (jobContext v : JValue) (omitOpt inject : Bool)
    (h1 : noTemplatesValue v = true)
    (h2 : omitOpt = true → noEmptyMembers v = true) :
    resolveJSONPathTemplates nowStr uuid v jobContext omitOpt inject = (v, []) :=
  resolveValue_id _ _ v h1 h2

theorem resolve_no_placeholder_identity_witness :
    resolveJSONPathTemplates "" "" (.obj (.fcons "a" (.str "hello") (.fcons "n" (.num 5) .nil)))
        (.obj .nil) true true
      = (.obj (.fcons "a" (.str "hello") (.fcons "n" (.num 5) .nil)), []) :=
  resolve_no_placeholder_identity "" "" _ _ true true (by decide) (fun _ => by decide)

mutual
theorem resolveValue_noEmpty (ctx : JValue) :
    ∀ v : JValue, noEmptyMembers (resolveValue ctx true v).1 = true
  | .str s => rfl
  | .num _ => rfl
  | .jbool _ => rfl
  | .jnull => rfl
  | .arr xs => by
    simp [resolveValue, noEmptyMembers, resolveJList_noEmpty ctx xs]
  | .obj fs => by
    simp [resolveValue, noEmptyMembers, resolveJFields_noEmpty ctx fs]
theorem resolveJList_noEmpty (ctx : JValue) :
    ∀ xs : JList, noEmptyMembersList (jlFilterNonEmpty (resolveJList ctx true xs).1) = true
  | .nil => rfl
  | .cons x xs => by
    have hx := resolveValue_noEmpty ctx x
    have hxs := resolveJList_noEmpty ctx xs
    by_cases he : isEmptyStr (resolveValue ctx true x).1 = true
    · simp [resolveJList, jlFilterNonEmpty, he, hxs]
    · simp only [Bool.not_eq_true] at he
      simp [resolveJList, jlFilterNonEmpty, he, noEmptyMembersList, hx, hxs]
theorem resolveJFields_noEmpty (ctx : JValue) :
    ∀ fs : JFields, noEmptyMembersFields (resolveJFields ctx true fs).1 = true
  | .nil => rfl
  | .fcons k v fs => by
    have hv := resolveValue_noEmpty ctx v
    have hfs := resolveJFields_noEmpty ctx fs
    by_cases he : isEmptyStr (resolveValue ctx true v).1 = true
    · simp [resolveJFields, he, hfs]
    · simp only [Bool.not_eq_true] at he
      simp [resolveJFields, he, noEmptyMembersFields, hv, hfs]
end

/-- C9: with the omit option enabled, no mapping entry and no sequence
element of the result is the empty string, at any depth - entries whose
resolved value is empty (including literal empty strings with no
placeholder) are dropped - and literal empty strings produce no error
message: dropping a literal `""` mapping entry or sequence element yields an
empty error list. -/
theorem omit_empty_drops_members :
    (∀ ctx v : JValue, noEmptyMembers (resolveValue ctx true v).1 = true)
    ∧ (∀ nowStr uuid : String,
        resolveJSONPathTemplates nowStr uuid
            (.obj (.fcons "a" (.str "") (.fcons "b" (.str "x") .nil))) (.obj .nil) true true
          = (.obj (.fcons "b" (.str "x") .nil), [])
        ∧ resolveJSONPathTemplates nowStr uuid
            (.arr (.cons (.str "") (.cons (.str "y") .nil))) (.obj .nil) true true
          = (.arr (.cons (.str "y") .nil), [])) :=
  ⟨fun ctx v => resolveValue_noEmpty ctx v, fun _ _ => ⟨rfl, rfl⟩⟩

/-- C10: a path that traverses to the JSON value `null` is reported by
`extractJSONPathValue` as not found, so such a placeholder behaves exactly
like a missing path: the `field not found` message is collected and the
marker text substituted (never the text `null`). -/
theorem null_path_not_found :
    (∀ (json : JValue) (jsonPath : String),
        jsGet json (stripJSONPath jsonPath) = some JValue.jnull →
        extractJSONPathValue json jsonPath = none)
    ∧ (∀ nowStr uuid : String,
        resolveJSONPathTemplates nowStr uuid
            (.obj (.fcons "x" (.str "\x7b$.a\x7d") .nil))
            (.obj (.fcons "a" JValue.jnull .nil)) false true
          = (.obj (.fcons "x" (.str NO_VALUE_PLACEHOLDER) .nil), [notFoundMsg "$.a"])) := by
  constructor
  · intro json jsonPath h
    unfold extractJSONPathValue
    by_cases hp : stripJSONPath jsonPath = ""
    · rw [hp] at h
      simp [jsGet] at h
    · simp only [hp, if_false, h]
  · intro _ _
    rfl

theorem null_path_not_found_witness :
    extractJSONPathValue (.obj (.fcons "a" JValue.jnull .nil)) "$.a" = none :=
  null_path_not_found.1 _ _ rfl
